import Mathlib

/-!
Shallow embedding of the JOURNALSPHERE fetch/normalize/cache/fallback/notify
layer, translated from the TypeScript sources:

* `journalApi` (theme matcher, daily-entry cache, change detection, fan-out);
* `newsApiManager` (`fetchArticlesFromAllSources` provider fallback loop);
* the unified article service (mock-data variant: `fetchAllArticles`,
  `fetchArticlesByCategory`, `fetchTrendingArticles`, `searchAllArticles`,
  `fetchArticleById`, `fetchRelatedArticles`, `startArticlePolling` and the
  single-flight check guard).

Effectful collaborators are made explicit parameters: a network fetch is an
`Except Unit` outcome (the quote transform is nondeterministic — random ids,
dates and trending flags — so a fetch outcome is the already-transformed
article list), `localStorage` under the single key
`journalSphere_dailyEntries` is an `Option CacheRecord` threaded through, and
timers / notification fan-outs are recorded as explicit traces.
-/

namespace JournalSphere

/-- The normalized article shape (`NewsArticle` in `types/news`). -/
structure NewsArticle where
  id : String
  title : String
  source : String
  author : String
  publishedAt : String
  summary : String
  content : String
  imageUrl : String
  url : String
  categories : List String
  trending : Bool
  apiSource : Option String := none
  deriving DecidableEq, Repr

/-- JavaScript `String.prototype.toLowerCase` (ASCII-level model). -/
def toLowerStr (s : String) : String := String.mk (s.data.map Char.toLower)

/-- JavaScript `tags.join(' ')`. -/
def joinSpace : List String → String
  | [] => ""
  | [t] => t
  | t :: ts => t ++ " " ++ joinSpace ts

/-- `sub` occurs as a contiguous run inside `l`. -/
def charsInclude (sub : List Char) : List Char → Bool
  | [] => sub.isEmpty
  | c :: cs => sub.isPrefixOf (c :: cs) || charsInclude sub cs

/-- JavaScript `s.includes(sub)`: `sub` occurs as a contiguous substring of `s`. -/
def strIncludes (s sub : String) : Bool := charsInclude sub.toList s.toList

/-- One entry of the static theme table (`ThemeImage`). -/
structure ThemeImage where
  theme : String
  keywords : List String
  imageUrl : String
  description : String
  deriving DecidableEq, Repr

/-- The static table `THEMED_JOURNAL_IMAGES`, in definition order. -/
def THEMED_JOURNAL_IMAGES : List ThemeImage :=
  [ { theme := "mindfulness"
    , keywords := ["mindful", "present", "awareness", "meditation", "breath", "calm", "peace"]
    , imageUrl := "https://images.unsplash.com/photo-1506126613408-eca07ce68773?q=80&w=1000&auto=format&fit=crop"
    , description := "Person meditating by a peaceful lake at sunrise" }
  , { theme := "gratitude"
    , keywords := ["grateful", "thankful", "appreciation", "blessing", "gift", "abundance"]
    , imageUrl := "https://images.unsplash.com/photo-1518609878373-06d740f60d8b?q=80&w=1000&auto=format&fit=crop"
    , description := "Hands holding a small plant growing from soil, symbolizing gratitude and growth" }
  , { theme := "nature"
    , keywords := ["natural", "outdoors", "environment", "earth", "forest", "mountain", "ocean", "wilderness"]
    , imageUrl := "https://images.unsplash.com/photo-1441974231531-c6227db76b6e?q=80&w=1000&auto=format&fit=crop"
    , description := "Sunlight streaming through a lush green forest" }
  , { theme := "growth"
    , keywords := ["develop", "improve", "progress", "evolve", "learn", "journey", "potential"]
    , imageUrl := "https://images.unsplash.com/photo-1549576490-b0b4831ef60a?q=80&w=1000&auto=format&fit=crop"
    , description := "New plant sprouting from soil, representing personal growth" }
  , { theme := "reflection"
    , keywords := ["reflect", "contemplate", "introspection", "thought", "consider", "ponder", "examine"]
    , imageUrl := "https://images.unsplash.com/photo-1500462918059-b1a0cb512f1d?q=80&w=1000&auto=format&fit=crop"
    , description := "Person looking at reflection in calm water" }
  , { theme := "balance"
    , keywords := ["equilibrium", "harmony", "stability", "center", "peace", "moderation"]
    , imageUrl := "https://images.unsplash.com/photo-1519834089823-af2d966a42c4?q=80&w=1000&auto=format&fit=crop"
    , description := "Balanced stones stacked on a beach at sunset" }
  , { theme := "wisdom"
    , keywords := ["knowledge", "insight", "understanding", "sage", "philosophy", "enlightenment", "truth"]
    , imageUrl := "https://images.unsplash.com/photo-1532012197267-da84d127e765?q=80&w=1000&auto=format&fit=crop"
    , description := "Open book with light illuminating the pages" }
  , { theme := "creativity"
    , keywords := ["create", "imagine", "inspire", "art", "innovation", "expression", "original"]
    , imageUrl := "https://images.unsplash.com/photo-1513364776144-60967b0f800f?q=80&w=1000&auto=format&fit=crop"
    , description := "Colorful art supplies and creative workspace" }
  , { theme := "courage"
    , keywords := ["brave", "strength", "fearless", "confidence", "bold", "daring", "overcome"]
    , imageUrl := "https://images.unsplash.com/photo-1520116468816-95b69f847357?q=80&w=1000&auto=format&fit=crop"
    , description := "Person standing on mountain peak overlooking vast landscape" }
  , { theme := "connection"
    , keywords := ["relationship", "community", "bond", "together", "unity", "friendship", "love"]
    , imageUrl := "https://images.unsplash.com/photo-1511632765486-a01980e01a18?q=80&w=1000&auto=format&fit=crop"
    , description := "People holding hands in unity and support" }
  , { theme := "simplicity"
    , keywords := ["minimal", "essential", "clarity", "focus", "uncomplicated", "basic"]
    , imageUrl := "https://images.unsplash.com/photo-1473186505569-9c61870c11f9?q=80&w=1000&auto=format&fit=crop"
    , description := "Minimalist scene with simple objects and clean lines" }
  , { theme := "resilience"
    , keywords := ["endure", "overcome", "persevere", "adapt", "recover", "strength", "determination"]
    , imageUrl := "https://images.unsplash.com/photo-1485236715568-ddc5ee6ca227?q=80&w=1000&auto=format&fit=crop"
    , description := "Plant growing through crack in concrete, symbolizing resilience" }
  ]

/-- `DEFAULT_JOURNAL_IMAGE` (declared in the source; unused by `findRelevantImage`). -/
def DEFAULT_JOURNAL_IMAGE : String :=
  "https://images.unsplash.com/photo-1517842645767-c639042777db?q=80&w=1000&auto=format&fit=crop"

/-- A theme score kept as the exact fraction `(matchCount, keywordCount)`,
standing for `matchCount / keywordCount`. The possible score values `k/6`,
`k/7`, `k/8` are at least `1/336` apart, so IEEE doubles (what the JS code
computes) compare exactly like the exact rationals. -/
def scoreQ (s : Nat × Nat) : ℚ := (s.1 : ℚ) / (s.2 : ℚ)

/-- Strict comparison of two scores by cross-multiplication; for positive
denominators (every theme has 6 to 8 keywords) this is exactly the order of
the rational — and hence of the floating-point — score values. -/
def scoreLt (a b : Nat × Nat) : Bool := decide (a.1 * b.2 < b.1 * a.2)

/-- The scored theme list built inside `findRelevantImage`: for each theme in
definition order, the pair of the theme and its score fraction
`(matchCount, theme.keywords.length)`. -/
def themeScores (quoteContent : String) (tags : List String) :
    List (ThemeImage × Nat × Nat) :=
  let combinedText := toLowerStr (quoteContent ++ " " ++ joinSpace tags)
  THEMED_JOURNAL_IMAGES.map (fun theme =>
    let matchCount :=
      (theme.keywords.filter (fun keyword => strIncludes combinedText (toLowerStr keyword))).length
    (theme, matchCount, theme.keywords.length))

/-- Stable insertion into a descending-by-score list: the new element goes
after every earlier element with a strictly greater score and before the first
element with score `≤` its own, so original order is kept among ties. -/
def insertByScoreDesc {α : Type} (x : α × Nat × Nat) :
    List (α × Nat × Nat) → List (α × Nat × Nat)
  | [] => [x]
  | y :: ys => if scoreLt x.2 y.2 then y :: insertByScoreDesc x ys else x :: y :: ys

/-- Model of `themeScores.sort((a, b) => b.score - a.score)`:
`Array.prototype.sort` is stable with a consistent comparator, hence equal (as
insertion sort is) to the unique stable descending reordering. -/
def sortByScoreDesc {α : Type} (l : List (α × Nat × Nat)) : List (α × Nat × Nat) :=
  l.foldr insertByScoreDesc []

/-- The `tags`-based fallback branch of `findRelevantImage` (`tags[0]` matched
against theme names and keywords), then the random-theme fallback. The random
index `Math.floor(Math.random() * length)` is an explicit parameter. -/
def tagFallback (tags : List String) (randIdx : Nat) : String × String :=
  let randomPick :=
    match THEMED_JOURNAL_IMAGES.get? (randIdx % THEMED_JOURNAL_IMAGES.length) with
    | some t => (t.imageUrl, t.description)
    | none => ("", "")
  match tags with
  | [] => randomPick
  | tagHead :: _ =>
    let tagToMatch := toLowerStr tagHead
    match THEMED_JOURNAL_IMAGES.find? (fun theme =>
        toLowerStr theme.theme == tagToMatch
          || theme.keywords.any (fun k => toLowerStr k == tagToMatch)) with
    | some t => (t.imageUrl, t.description)
    | none => randomPick

/-- `findRelevantImage(quoteContent, tags)`: score every theme, stably sort by
descending score, and if the best score is positive (`score > 0`, i.e.
`0 < matchCount` since every keyword count in the table is positive) return
that theme's image and description; otherwise fall back via the first tag,
then randomly. The `[]` case is unreachable (the table has 12 entries). -/
def findRelevantImage (quoteContent : String) (tags : List String) (randIdx : Nat) :
    String × String :=
  match sortByScoreDesc (themeScores quoteContent tags) with
  | best :: _ =>
    if 0 < best.2.1 then (best.1.imageUrl, best.1.description)
    else tagFallback tags randIdx
  | [] => tagFallback tags randIdx

theorem scoreQ_le_iff {a b : Nat × Nat} (ha : 0 < a.2) (hb : 0 < b.2) :
    scoreQ a ≤ scoreQ b ↔ a.1 * b.2 ≤ b.1 * a.2 := by
  have ha' : (0 : ℚ) < a.2 := by exact_mod_cast ha
  have hb' : (0 : ℚ) < b.2 := by exact_mod_cast hb
  rw [scoreQ, scoreQ, div_le_div_iff₀ ha' hb']
  constructor <;> intro h <;> exact_mod_cast h

theorem scoreQ_lt_iff {a b : Nat × Nat} (ha : 0 < a.2) (hb : 0 < b.2) :
    scoreQ a < scoreQ b ↔ a.1 * b.2 < b.1 * a.2 := by
  have ha' : (0 : ℚ) < a.2 := by exact_mod_cast ha
  have hb' : (0 : ℚ) < b.2 := by exact_mod_cast hb
  rw [scoreQ, scoreQ, div_lt_div_iff₀ ha' hb']
  constructor <;> intro h <;> exact_mod_cast h

/-- Head of the stable descending sort: it is the first element of the input
attaining the maximal score — every element scores `≤` it, and every element
strictly before it in the input scores strictly less. -/
theorem sortByScoreDesc_head {α : Type} (l : List (α × Nat × Nat)) (hne : l ≠ [])
    (hden : ∀ p ∈ l, 0 < p.2.2) :
    ∃ i, ∃ hi : i < l.length,
      (sortByScoreDesc l).head? = some (l.get ⟨i, hi⟩) ∧
      (∀ p ∈ l, scoreQ p.2 ≤ scoreQ (l.get ⟨i, hi⟩).2) ∧
      (∀ j, ∀ hj : j < l.length, j < i →
        scoreQ (l.get ⟨j, hj⟩).2 < scoreQ (l.get ⟨i, hi⟩).2) := by
  induction l with
  | nil => exact absurd rfl hne
  | cons x xs ih =>
    by_cases hxs : xs = []
    · subst hxs
      exact ⟨0, Nat.zero_lt_one, rfl,
        by intro p hp; rw [List.mem_singleton.mp hp]; exact le_refl _,
        by intro j hj hji; omega⟩
    · obtain ⟨i, hi, hhead, hmax, hfirst⟩ :=
        ih hxs (fun p hp => hden p (List.mem_cons_of_mem _ hp))
      have hxden : 0 < x.2.2 := hden x (List.mem_cons_self _ _)
      have hyden : 0 < (xs.get ⟨i, hi⟩).2.2 :=
        hden _ (List.mem_cons_of_mem _ (xs.get_mem _ _))
      cases hs : sortByScoreDesc xs with
      | nil => rw [hs] at hhead; cases hhead
      | cons y t =>
        rw [hs] at hhead
        simp only [List.head?_cons, Option.some.injEq] at hhead
        subst hhead
        have hsort : sortByScoreDesc (x :: xs) =
            insertByScoreDesc x (xs.get ⟨i, hi⟩ :: t) := by
          show insertByScoreDesc x (sortByScoreDesc xs) = _
          rw [hs]
        by_cases hcmp : scoreLt x.2 (xs.get ⟨i, hi⟩).2 = true
        · have hlt : scoreQ x.2 < scoreQ (xs.get ⟨i, hi⟩).2 :=
            (scoreQ_lt_iff hxden hyden).mpr (of_decide_eq_true hcmp)
          refine ⟨i + 1, by simpa using Nat.succ_lt_succ hi, ?_, ?_, ?_⟩
          · rw [hsort]
            simp only [insertByScoreDesc, hcmp, if_true]
            rfl
          · intro p hp
            rcases List.mem_cons.mp hp with rfl | hp'
            · exact le_of_lt hlt
            · exact hmax p hp'
          · intro j hj hji
            match j, hj with
            | 0, _ => exact hlt
            | k + 1, hk =>
              exact hfirst k (by simpa using Nat.lt_of_succ_lt_succ hk)
                (Nat.lt_of_succ_lt_succ hji)
        · have hle : scoreQ (xs.get ⟨i, hi⟩).2 ≤ scoreQ x.2 := by
            rw [scoreQ_le_iff hyden hxden]
            have := of_decide_eq_false (eq_false_of_ne_true hcmp)
            omega
          refine ⟨0, Nat.succ_pos _, ?_, ?_, ?_⟩
          · rw [hsort]
            simp only [insertByScoreDesc, hcmp, if_false]
            rfl
          · intro p hp
            rcases List.mem_cons.mp hp with rfl | hp'
            · exact le_refl _
            · exact le_trans (hmax p hp') hle
          · intro j hj hji; omega

/-- C9: with at least one theme scoring above zero (equivalently, with at
least one matched keyword, since every keyword count in the table is
positive), `findRelevantImage` returns the image URL and description of the
theme at an index `i` of the score list whose score (as the exact rational
`matchCount / keywordCount`) is maximal, with every earlier theme in
definition order scoring strictly less — so the first theme in definition
order wins ties. -/
theorem findRelevantImage_picks_first_max (quoteContent : String) (tags : List String)
    (randIdx : Nat)
    (hpos : ∃ p ∈ themeScores quoteContent tags, 0 < p.2.1) :
    ∃ i, ∃ hi : i < (themeScores quoteContent tags).length,
      findRelevantImage quoteContent tags randIdx =
        (((themeScores quoteContent tags).get ⟨i, hi⟩).1.imageUrl,
         ((themeScores quoteContent tags).get ⟨i, hi⟩).1.description) ∧
      (∀ p ∈ themeScores quoteContent tags,
        scoreQ p.2 ≤ scoreQ ((themeScores quoteContent tags).get ⟨i, hi⟩).2) ∧
      (∀ j, ∀ hj : j < (themeScores quoteContent tags).length, j < i →
        scoreQ ((themeScores quoteContent tags).get ⟨j, hj⟩).2 <
          scoreQ ((themeScores quoteContent tags).get ⟨i, hi⟩).2) := by
  have htab : ∀ t ∈ THEMED_JOURNAL_IMAGES, 0 < t.keywords.length := by decide
  have hden : ∀ p ∈ themeScores quoteContent tags, 0 < p.2.2 := by
    intro p hp
    simp only [themeScores, List.mem_map] at hp
    obtain ⟨theme, hmem, rfl⟩ := hp
    exact htab theme hmem
  have hlen : (themeScores quoteContent tags).length = 12 := by
    simp [themeScores, THEMED_JOURNAL_IMAGES]
  have hne : themeScores quoteContent tags ≠ [] := by
    intro h; rw [h] at hlen; cases hlen
  obtain ⟨i, hi, hhead, hmax, hfirst⟩ := sortByScoreDesc_head _ hne hden
  refine ⟨i, hi, ?_, hmax, hfirst⟩
  have hbpos : 0 < ((themeScores quoteContent tags).get ⟨i, hi⟩).2.1 := by
    by_contra hc
    have h0 : ((themeScores quoteContent tags).get ⟨i, hi⟩).2.1 = 0 := by omega
    have hq0 : scoreQ ((themeScores quoteContent tags).get ⟨i, hi⟩).2 = 0 := by
      unfold scoreQ
      rw [h0]
      simp
    obtain ⟨p, hp, hppos⟩ := hpos
    have hpq : (0 : ℚ) < scoreQ p.2 :=
      div_pos (by exact_mod_cast hppos) (by exact_mod_cast hden p hp)
    have := hmax p hp
    rw [hq0] at this
    linarith
  cases hsort : sortByScoreDesc (themeScores quoteContent tags) with
  | nil => rw [hsort] at hhead; cases hhead
  | cons b t =>
    rw [hsort] at hhead
    simp only [List.head?_cons, Option.some.injEq] at hhead
    subst hhead
    unfold findRelevantImage
    rw [hsort]
    exact if_pos hbpos

/-- Witness for C9 at `quoteContent = "calm"`, `tags = []`: the hypothesis
holds (the mindfulness keyword `calm` matches) and the theorem applies. -/
theorem findRelevantImage_picks_first_max_witness :
    (∃ p ∈ themeScores "calm" [], 0 < p.2.1) ∧
    (∃ i, ∃ hi : i < (themeScores "calm" []).length,
      findRelevantImage "calm" [] 0 =
        (((themeScores "calm" []).get ⟨i, hi⟩).1.imageUrl,
         ((themeScores "calm" []).get ⟨i, hi⟩).1.description) ∧
      (∀ p ∈ themeScores "calm" [],
        scoreQ p.2 ≤ scoreQ ((themeScores "calm" []).get ⟨i, hi⟩).2) ∧
      (∀ j, ∀ hj : j < (themeScores "calm" []).length, j < i →
        scoreQ ((themeScores "calm" []).get ⟨j, hj⟩).2 <
          scoreQ ((themeScores "calm" []).get ⟨i, hi⟩).2)) :=
  ⟨by decide, findRelevantImage_picks_first_max "calm" [] 0 (by decide)⟩

/-! ## Fallback Aggregator (`newsApiManager`) -/

/-- The `NewsApiSource` enum. -/
inductive NewsApiSource where
  | mediastack
  | newsapi
  | guardian
  deriving DecidableEq, Repr

/-- The default `API_PRIORITY` order. -/
def API_PRIORITY : List NewsApiSource :=
  [NewsApiSource.mediastack, NewsApiSource.newsapi, NewsApiSource.guardian]

/-- Result of one run of the aggregator loop: the returned article list, the
`latestArticles` per-source store after the run, and the list of providers
that were invoked, in invocation order. -/
structure FetchAllOut where
  result : List NewsArticle
  store : NewsApiSource → List NewsArticle
  trace : List NewsApiSource

/-- `fetchArticlesFromAllSources(category, limit, apiPriority)`: walk the
priority list; a throwing provider (`Except.error`) is caught and skipped, an
empty result is skipped, and the first non-empty result is stored under that
provider's key and returned immediately; if the list is exhausted, return
`[]`. The provider call (with its `category` and `limit` arguments applied)
is abstracted as `fetch`. -/
def fetchArticlesFromAllSources (fetch : NewsApiSource → Except Unit (List NewsArticle))
    (store : NewsApiSource → List NewsArticle) :
    List NewsApiSource → FetchAllOut
  | [] => ⟨[], store, []⟩
  | src :: rest =>
    match fetch src with
    | .error _ =>
      let out := fetchArticlesFromAllSources fetch store rest
      ⟨out.result, out.store, src :: out.trace⟩
    | .ok articles =>
      if 0 < articles.length then
        ⟨articles, Function.update store src articles, [src]⟩
      else
        let out := fetchArticlesFromAllSources fetch store rest
        ⟨out.result, out.store, src :: out.trace⟩

/-- A provider attempt that the loop skips: it throws, or returns `[]`. -/
def provFailsOrEmpty (fetch : NewsApiSource → Except Unit (List NewsArticle))
    (src : NewsApiSource) : Prop :=
  fetch src = .error () ∨ fetch src = .ok []

/-- C2: the aggregator invokes providers strictly in priority order; when
every provider throws or returns empty it invokes them all and returns `[]`
(never raising — the model is total); and when the priority list splits as
`pre ++ src :: post` with every provider of `pre` failing-or-empty and `src`
returning a non-empty list, the result is exactly that list, the invocation
trace is exactly `pre ++ [src]` (nothing after the first success runs), and
the list is stored under `src`'s key. -/
theorem fetchAll_first_success (fetch : NewsApiSource → Except Unit (List NewsArticle))
    (store : NewsApiSource → List NewsArticle) :
    (∀ apiPriority, (∀ s ∈ apiPriority, provFailsOrEmpty fetch s) →
      (fetchArticlesFromAllSources fetch store apiPriority).result = [] ∧
      (fetchArticlesFromAllSources fetch store apiPriority).trace = apiPriority) ∧
    (∀ pre src post articles, (∀ s ∈ pre, provFailsOrEmpty fetch s) →
      fetch src = .ok articles → articles ≠ [] →
      (fetchArticlesFromAllSources fetch store (pre ++ src :: post)).result = articles ∧
      (fetchArticlesFromAllSources fetch store (pre ++ src :: post)).trace = pre ++ [src] ∧
      (fetchArticlesFromAllSources fetch store (pre ++ src :: post)).store src = articles) := by
  constructor
  · intro apiPriority
    induction apiPriority with
    | nil => intro _; exact ⟨rfl, rfl⟩
    | cons src rest ihr =>
      intro hall
      obtain ⟨hres, htr⟩ := ihr (fun s hs => hall s (List.mem_cons_of_mem _ hs))
      rcases hall src (List.mem_cons_self _ _) with herr | hemp
      · simp [fetchArticlesFromAllSources, herr, hres, htr]
      · simp [fetchArticlesFromAllSources, hemp, hres, htr]
  · intro pre
    induction pre with
    | nil =>
      intro src post articles _ hok hne
      have hlen : 0 < articles.length := List.length_pos.mpr hne
      simp [fetchArticlesFromAllSources, hok, hlen, Function.update_same]
    | cons s rest ihr =>
      intro src post articles hall hok hne
      obtain ⟨hres, htr, hst⟩ :=
        ihr src post articles (fun q hq => hall q (List.mem_cons_of_mem _ hq)) hok hne
      rcases hall s (List.mem_cons_self _ _) with herr | hemp
      · simp [fetchArticlesFromAllSources, herr, hres, htr, hst]
      · simp [fetchArticlesFromAllSources, hemp, hres, htr, hst]

/-- A small concrete article used by witnesses and counterexamples. -/
def demoArticle (n : Nat) : NewsArticle :=
  { id := toString n, title := "t", source := "s", author := "a"
  , publishedAt := "2026-10-11", summary := "sum", content := "c"
  , imageUrl := "i", url := "u", categories := ["general"], trending := false }

/-- The five articles of the spec's three-provider scenario. -/
def demoFive : List NewsArticle :=
  [demoArticle 1, demoArticle 2, demoArticle 3, demoArticle 4, demoArticle 5]

/-- Provider behavior of the spec's scenario: provider 1 throws, provider 2
returns empty, provider 3 returns 5 articles. -/
def demoFetch : NewsApiSource → Except Unit (List NewsArticle)
  | NewsApiSource.mediastack => .error ()
  | NewsApiSource.newsapi => .ok []
  | NewsApiSource.guardian => .ok demoFive

/-- Witness for C2 at the spec's scenario: the hypotheses hold for
`demoFetch` and the default priority order, and the theorem yields that the
result is exactly provider 3's articles with invocation trace 1, 2, 3. -/
theorem fetchAll_first_success_witness :
    (∀ s ∈ [NewsApiSource.mediastack, NewsApiSource.newsapi], provFailsOrEmpty demoFetch s) ∧
    demoFetch NewsApiSource.guardian = .ok demoFive ∧ demoFive ≠ [] ∧
    (fetchArticlesFromAllSources demoFetch (fun _ => [])
        ([NewsApiSource.mediastack, NewsApiSource.newsapi] ++
          NewsApiSource.guardian :: [])).result = demoFive ∧
    (fetchArticlesFromAllSources demoFetch (fun _ => [])
        ([NewsApiSource.mediastack, NewsApiSource.newsapi] ++
          NewsApiSource.guardian :: [])).trace =
      [NewsApiSource.mediastack, NewsApiSource.newsapi] ++ [NewsApiSource.guardian] ∧
    (fetchArticlesFromAllSources demoFetch (fun _ => [])
        ([NewsApiSource.mediastack, NewsApiSource.newsapi] ++
          NewsApiSource.guardian :: [])).store NewsApiSource.guardian = demoFive := by
  have h1 : ∀ s ∈ [NewsApiSource.mediastack, NewsApiSource.newsapi],
      provFailsOrEmpty demoFetch s := by
    intro s hs
    rcases List.mem_cons.mp hs with rfl | hs'
    · exact Or.inl rfl
    · rcases List.mem_cons.mp hs' with rfl | hs''
      · exact Or.inr rfl
      · cases hs''
  have h2 : demoFetch NewsApiSource.guardian = .ok demoFive := rfl
  have h3 : demoFive ≠ [] := by decide
  obtain ⟨ha, hb, hc⟩ :=
    (fetchAll_first_success demoFetch (fun _ => [])).2
      [NewsApiSource.mediastack, NewsApiSource.newsapi] NewsApiSource.guardian [] demoFive
      h1 h2 h3
  exact ⟨h1, h2, h3, ha, hb, hc⟩

/-! ## Cache & Change Detector (`journalApi`) -/

/-- The persisted record under the `journalSphere_dailyEntries` key:
`{ date: "YYYY-MM-DD", entries: [...] }`. -/
structure CacheRecord where
  date : String
  entries : List NewsArticle
  deriving DecidableEq, Repr

/-- The cached entry list the code reads (`entries || []`, and `[]` when the
key is absent). -/
def cachedEntriesOf : Option CacheRecord → List NewsArticle
  | some r => r.entries
  | none => []

/-- Result of `fetchDailyJournalEntries`: the returned articles, the storage
after the call, and how many network fetches were performed. -/
structure DailyOut where
  result : List NewsArticle
  storage : Option CacheRecord
  networkCalls : Nat
  deriving DecidableEq, Repr

/-- The non-cached path of `fetchDailyJournalEntries`: one network fetch; on
success the transformed entries are stored under today's date and returned;
on any error (transport, HTTP status, parse) the catch block serves the
existing cache whatever its date if it has non-empty entries, else `[]`.
Never throws: the codomain is a plain value, not an `Except`. -/
def dailyNetworkPath (today : String) (fetchOutcome : Except Unit (List NewsArticle))
    (storage : Option CacheRecord) : DailyOut :=
  match fetchOutcome with
  | .ok journalEntries => ⟨journalEntries, some ⟨today, journalEntries⟩, 1⟩
  | .error _ =>
    match storage with
    | some r => if r.entries.isEmpty then ⟨[], storage, 1⟩ else ⟨r.entries, storage, 1⟩
    | none => ⟨[], storage, 1⟩

/-- `fetchDailyJournalEntries` (`getDailyEntries`): if the cache holds a
record dated today with non-empty entries, return it verbatim with no network
call; otherwise take the network path. -/
def fetchDailyJournalEntries (today : String)
    (fetchOutcome : Except Unit (List NewsArticle))
    (storage : Option CacheRecord) : DailyOut :=
  match storage with
  | some r =>
    if r.date == today && !r.entries.isEmpty then ⟨r.entries, storage, 0⟩
    else dailyNetworkPath today fetchOutcome storage
  | none => dailyNetworkPath today fetchOutcome storage

/-- C3: with a cached record dated today holding non-empty entries,
`fetchDailyJournalEntries` returns exactly those entries with zero network
calls and leaves the storage unchanged; consequently a second call on the
same day (with any fetch outcome `f2`) returns the identical result with zero
additional network calls. -/
theorem getDailyEntries_same_day_cached (today : String)
    (f1 f2 : Except Unit (List NewsArticle)) (r : CacheRecord)
    (hdate : r.date = today) (hne : r.entries ≠ []) :
    fetchDailyJournalEntries today f1 (some r) = ⟨r.entries, some r, 0⟩ ∧
    (fetchDailyJournalEntries today f2
        (fetchDailyJournalEntries today f1 (some r)).storage).result =
      (fetchDailyJournalEntries today f1 (some r)).result ∧
    (fetchDailyJournalEntries today f2
        (fetchDailyJournalEntries today f1 (some r)).storage).networkCalls = 0 := by
  have hcond : (r.date == today && !r.entries.isEmpty) = true := by
    rw [hdate]
    simp [List.isEmpty_iff, hne]
  have h1 : fetchDailyJournalEntries today f1 (some r) = ⟨r.entries, some r, 0⟩ := by
    simp [fetchDailyJournalEntries, hcond]
  have h2 : fetchDailyJournalEntries today f2 (some r) = ⟨r.entries, some r, 0⟩ := by
    simp [fetchDailyJournalEntries, hcond]
  refine ⟨h1, ?_, ?_⟩
  · rw [h1]
    show (fetchDailyJournalEntries today f2 (some r)).result = r.entries
    rw [h2]
  · rw [h1]
    show (fetchDailyJournalEntries today f2 (some r)).networkCalls = 0
    rw [h2]

/-- Witness for C3 at a concrete today-dated non-empty cache. -/
theorem getDailyEntries_same_day_cached_witness :
    ("2026-10-11" : String) = "2026-10-11" ∧ [demoArticle 1] ≠ [] ∧
    (fetchDailyJournalEntries "2026-10-11" (.error ())
        (some ⟨"2026-10-11", [demoArticle 1]⟩) =
      ⟨[demoArticle 1], some ⟨"2026-10-11", [demoArticle 1]⟩, 0⟩ ∧
    (fetchDailyJournalEntries "2026-10-11" (.ok [demoArticle 2])
        (fetchDailyJournalEntries "2026-10-11" (.error ())
          (some ⟨"2026-10-11", [demoArticle 1]⟩)).storage).result =
      (fetchDailyJournalEntries "2026-10-11" (.error ())
        (some ⟨"2026-10-11", [demoArticle 1]⟩)).result ∧
    (fetchDailyJournalEntries "2026-10-11" (.ok [demoArticle 2])
        (fetchDailyJournalEntries "2026-10-11" (.error ())
          (some ⟨"2026-10-11", [demoArticle 1]⟩)).storage).networkCalls = 0) :=
  ⟨rfl, by decide,
    getDailyEntries_same_day_cached "2026-10-11" (.error ()) (.ok [demoArticle 2])
      ⟨"2026-10-11", [demoArticle 1]⟩ rfl (by decide)⟩

/-- C4: when the network path is taken (no today-dated non-empty cache) and
the fetch errors, `fetchDailyJournalEntries` returns the existing cached
entries regardless of their date if non-empty, and `[]` otherwise; the
storage is untouched and nothing is thrown (the model is total). -/
theorem getDailyEntries_error_fallback (today : String) (storage : Option CacheRecord)
    (hmiss : ∀ r, storage = some r → ¬(r.date = today ∧ r.entries ≠ [])) :
    (fetchDailyJournalEntries today (.error ()) storage).result =
      (if (cachedEntriesOf storage).isEmpty then [] else cachedEntriesOf storage) ∧
    (fetchDailyJournalEntries today (.error ()) storage).storage = storage ∧
    (fetchDailyJournalEntries today (.error ()) storage).networkCalls = 1 := by
  cases storage with
  | none => exact ⟨rfl, rfl, rfl⟩
  | some r =>
    have hcond : (r.date == today && !r.entries.isEmpty) = false := by
      have := hmiss r rfl
      by_cases hd : r.date = today
      · have hemp : r.entries = [] := by
          by_contra hc
          exact this ⟨hd, hc⟩
        simp [hemp]
      · simp [hd]
    have : fetchDailyJournalEntries today (.error ()) (some r) =
        dailyNetworkPath today (.error ()) (some r) := by
      simp [fetchDailyJournalEntries, hcond]
    rw [this]
    unfold dailyNetworkPath cachedEntriesOf
    by_cases hemp : r.entries.isEmpty
    · simp [hemp]
    · simp [hemp]

/-- Witness for C4: a stale (yesterday-dated) non-empty cache is served when
the fetch errors. -/
theorem getDailyEntries_error_fallback_witness :
    (∀ r, (some (⟨"2026-10-10", [demoArticle 1]⟩ : CacheRecord)) = some r →
      ¬(r.date = "2026-10-11" ∧ r.entries ≠ [])) ∧
    ((fetchDailyJournalEntries "2026-10-11" (.error ())
        (some ⟨"2026-10-10", [demoArticle 1]⟩)).result =
      (if (cachedEntriesOf (some ⟨"2026-10-10", [demoArticle 1]⟩)).isEmpty then []
        else cachedEntriesOf (some ⟨"2026-10-10", [demoArticle 1]⟩)) ∧
    (fetchDailyJournalEntries "2026-10-11" (.error ())
        (some ⟨"2026-10-10", [demoArticle 1]⟩)).storage =
      some ⟨"2026-10-10", [demoArticle 1]⟩ ∧
    (fetchDailyJournalEntries "2026-10-11" (.error ())
        (some ⟨"2026-10-10", [demoArticle 1]⟩)).networkCalls = 1) := by
  have h : ∀ r, (some (⟨"2026-10-10", [demoArticle 1]⟩ : CacheRecord)) = some r →
      ¬(r.date = "2026-10-11" ∧ r.entries ≠ []) := by
    intro r hr
    cases Option.some.inj hr
    intro ⟨hd, _⟩
    exact absurd hd (by decide)
  exact ⟨h, getDailyEntries_error_fallback "2026-10-11" _ h⟩

/-- `fetchJournalEntryById(id)`: look the id up in the cached entries when
they are non-empty; otherwise (or when not found there) fetch all daily
entries and look the id up in those; any error yields `null`. Paired with the
storage left by the inner call. -/
def fetchJournalEntryById (id today : String)
    (fetchOutcome : Except Unit (List NewsArticle))
    (storage : Option CacheRecord) : Option NewsArticle × Option CacheRecord :=
  let viaDaily :=
    let out := fetchDailyJournalEntries today fetchOutcome storage
    (out.result.find? (fun e => e.id == id), out.storage)
  match storage with
  | some r =>
    if !r.entries.isEmpty then
      match r.entries.find? (fun e => e.id == id) with
      | some e => (some e, storage)
      | none => viaDaily
    else viaDaily
  | none => viaDaily

/-- C10: `fetchJournalEntryById` is total (never throws) and returns either
`none` or an article whose `id` is exactly the requested id, drawn from the
cached entries or from the daily-entry fetch result. -/
theorem fetchJournalEntryById_id_exact (id today : String)
    (fetchOutcome : Except Unit (List NewsArticle)) (storage : Option CacheRecord) :
    (fetchJournalEntryById id today fetchOutcome storage).1 = none ∨
    ∃ e, (fetchJournalEntryById id today fetchOutcome storage).1 = some e ∧
      e.id = id ∧
      (e ∈ cachedEntriesOf storage ∨
        e ∈ (fetchDailyJournalEntries today fetchOutcome storage).result) := by
  have hdaily : ∀ l : List NewsArticle,
      l.find? (fun e => e.id == id) = none ∨
      ∃ e, l.find? (fun e => e.id == id) = some e ∧ e.id = id ∧ e ∈ l := by
    intro l
    cases hf : l.find? (fun e => e.id == id) with
    | none => exact Or.inl rfl
    | some e =>
      refine Or.inr ⟨e, rfl, ?_, List.mem_of_find?_eq_some hf⟩
      have := List.find?_some hf
      exact eq_of_beq this
  unfold fetchJournalEntryById
  cases storage with
  | none =>
    rcases hdaily (fetchDailyJournalEntries today fetchOutcome none).result with h | ⟨e, he, hid, hm⟩
    · exact Or.inl (by simpa using h)
    · exact Or.inr ⟨e, by simpa using he, hid, Or.inr hm⟩
  | some r =>
    by_cases hemp : r.entries.isEmpty
    · rcases hdaily (fetchDailyJournalEntries today fetchOutcome (some r)).result with h | ⟨e, he, hid, hm⟩
      · exact Or.inl (by simp [hemp]; simpa using h)
      · exact Or.inr ⟨e, by simp [hemp]; simpa using he, hid, Or.inr hm⟩
    · cases hf : r.entries.find? (fun e => e.id == id) with
      | some e =>
        refine Or.inr ⟨e, ?_, ?_, Or.inl (List.mem_of_find?_eq_some hf)⟩
        · simp [hemp, hf]
        · have hbeq := List.find?_some hf
          exact eq_of_beq hbeq
      | none =>
        rcases hdaily (fetchDailyJournalEntries today fetchOutcome (some r)).result with h | ⟨e, he, hid, hm⟩
        · exact Or.inl (by simp [hemp, hf]; simpa using h)
        · exact Or.inr ⟨e, by simp [hemp, hf]; simpa using he, hid, Or.inr hm⟩

/-- In-process state of the change detector: the module-level
`lastFetchTimestamp` and the persisted cache. -/
structure JournalState where
  lastFetchTimestamp : Int
  storage : Option CacheRecord
  deriving DecidableEq, Repr

/-- Result of one `checkForNewArticles` run: the returned boolean, the state
afterwards, and one entry per invocation of the article-update fan-out
(holding the argument passed to it). -/
structure CheckOut where
  result : Bool
  state : JournalState
  notifications : List (List NewsArticle)
  deriving DecidableEq, Repr

/-- `notifyArticleUpdateListeners`: apply every registered listener, in
registration order, to the new article list. -/
def notifyArticleUpdateListeners {α : Type} (listeners : List (List NewsArticle → α))
    (articles : List NewsArticle) : List α :=
  listeners.map (fun listener => listener articles)

/-- The comparison inside `checkForNewArticles`:
`latest.summary === cached.summary && latest.author === cached.author`. -/
def entriesMatch (latest cached : NewsArticle) : Bool :=
  latest.summary == cached.summary && latest.author == cached.author

/-- The `hasNewContent` expression of `checkForNewArticles`: true when the
cache is empty, or when NO cached entry has a matching fresh entry
(note: `cachedEntries.some(...)` in the source — one matching cached entry
suffices to declare "no new content"). -/
def hasNewContentCheck (cachedEntries latestEntries : List NewsArticle) : Bool :=
  cachedEntries.length == 0 ||
    !(cachedEntries.any fun cached =>
        latestEntries.any fun latest => entriesMatch latest cached)

/-- `checkForNewArticles` (`checkForChanges`): debounce (under 30000 ms since
the last check returns `false` untouched); then stamp the check time, fetch
(an error is caught and returns `false`), compare via `hasNewContentCheck`,
and on new content overwrite the cache with `{date: today, entries: fresh}`,
fan out one notification with the fresh entries, and return `true`. -/
def checkForNewArticles (now : Int) (today : String)
    (fetchOutcome : Except Unit (List NewsArticle)) (s : JournalState) : CheckOut :=
  if now - s.lastFetchTimestamp < 30000 then ⟨false, s, []⟩
  else
    let s1 : JournalState := ⟨now, s.storage⟩
    match fetchOutcome with
    | .error _ => ⟨false, s1, []⟩
    | .ok latestEntries =>
      if hasNewContentCheck (cachedEntriesOf s.storage) latestEntries then
        ⟨true, ⟨now, some ⟨today, latestEntries⟩⟩, [latestEntries]⟩
      else ⟨false, s1, []⟩

/-- Cached entry that the fresh entry matches. -/
def cxCachedA : NewsArticle := { demoArticle 1 with summary := "alpha", author := "A" }

/-- Cached entry that NO fresh entry matches. -/
def cxCachedB : NewsArticle := { demoArticle 2 with summary := "beta", author := "B" }

/-- The single fresh entry, matching `cxCachedA` on summary and author. -/
def cxFresh : NewsArticle := { demoArticle 3 with summary := "alpha", author := "A" }

/-- Change-detector state with two cached entries and a stale check stamp. -/
def cxJState : JournalState := ⟨0, some ⟨"2026-10-10", [cxCachedA, cxCachedB]⟩⟩

/-- Counterexample to C1 as stated: past the debounce window and with a
successful fetch (an actual comparison), the run returns `false`, yet NOT
every cached entry has a matching fresh entry — `cxCachedB` has none; one
matching cached entry (`cxCachedA`) sufficed. -/
theorem checkForNew_every_match_counterexample :
    ¬((100000 : Int) - cxJState.lastFetchTimestamp < 30000) ∧
    (checkForNewArticles 100000 "2026-10-11" (.ok [cxFresh]) cxJState).result = false ∧
    ¬(∀ c ∈ cachedEntriesOf cxJState.storage, ∃ l ∈ [cxFresh],
        l.summary = c.summary ∧ l.author = c.author) := by decide

/-- C1 amended: when `checkForNewArticles` returns `false` after an actual
comparison (past the debounce window, fetch succeeded), the cached entry set
is non-empty and at least one cached entry has at least one fresh entry
sharing the same summary AND author. -/
theorem checkForNew_noNew_some_match (now : Int) (today : String)
    (latestEntries : List NewsArticle) (s : JournalState)
    (hdeb : ¬(now - s.lastFetchTimestamp < 30000))
    (hres : (checkForNewArticles now today (.ok latestEntries) s).result = false) :
    cachedEntriesOf s.storage ≠ [] ∧
    ∃ c ∈ cachedEntriesOf s.storage, ∃ l ∈ latestEntries,
      l.summary = c.summary ∧ l.author = c.author := by
  have hstep : checkForNewArticles now today (.ok latestEntries) s =
      (if hasNewContentCheck (cachedEntriesOf s.storage) latestEntries then
        ⟨true, ⟨now, some ⟨today, latestEntries⟩⟩, [latestEntries]⟩
      else ⟨false, ⟨now, s.storage⟩, []⟩) := by
    unfold checkForNewArticles
    rw [if_neg hdeb]
  rw [hstep] at hres
  by_cases hnew : hasNewContentCheck (cachedEntriesOf s.storage) latestEntries = true
  · rw [if_pos hnew] at hres
    cases hres
  · simp only [hasNewContentCheck, Bool.or_eq_true, beq_iff_eq,
      Bool.not_eq_true', not_or, Bool.not_eq_false] at hnew
    obtain ⟨hlen, hany⟩ := hnew
    constructor
    · intro hnil
      rw [hnil] at hlen
      exact hlen rfl
    · rw [List.any_eq_true] at hany
      obtain ⟨c, hc, hinner⟩ := hany
      rw [List.any_eq_true] at hinner
      obtain ⟨l, hl, hm⟩ := hinner
      rw [entriesMatch, Bool.and_eq_true] at hm
      exact ⟨c, hc, l, hl, eq_of_beq hm.1, eq_of_beq hm.2⟩

/-- Witness for the amended C1 at the counterexample scenario. -/
theorem checkForNew_noNew_some_match_witness :
    ¬((100000 : Int) - cxJState.lastFetchTimestamp < 30000) ∧
    (checkForNewArticles 100000 "2026-10-11" (.ok [cxFresh]) cxJState).result = false ∧
    (cachedEntriesOf cxJState.storage ≠ [] ∧
      ∃ c ∈ cachedEntriesOf cxJState.storage, ∃ l ∈ [cxFresh],
        l.summary = c.summary ∧ l.author = c.author) :=
  ⟨by decide, by decide,
    checkForNew_noNew_some_match 100000 "2026-10-11" [cxFresh] cxJState
      (by decide) (by decide)⟩

/-- C5: starting from an empty cached entry set, past the debounce window and
with a successful fetch, `checkForNewArticles` returns `true`, overwrites the
cache with `{date: today, entries: fresh}`, and performs exactly one
notification fan-out whose argument is exactly the fresh entries. -/
theorem checkForNew_empty_cache_publishes (now : Int) (today : String)
    (latestEntries : List NewsArticle) (s : JournalState)
    (hdeb : ¬(now - s.lastFetchTimestamp < 30000))
    (hempty : cachedEntriesOf s.storage = []) :
    checkForNewArticles now today (.ok latestEntries) s =
      ⟨true, ⟨now, some ⟨today, latestEntries⟩⟩, [latestEntries]⟩ := by
  have hnew : hasNewContentCheck (cachedEntriesOf s.storage) latestEntries = true := by
    rw [hempty]
    rfl
  unfold checkForNewArticles
  rw [if_neg hdeb]
  show (if hasNewContentCheck (cachedEntriesOf s.storage) latestEntries then
      (⟨true, ⟨now, some ⟨today, latestEntries⟩⟩, [latestEntries]⟩ : CheckOut)
    else ⟨false, ⟨now, s.storage⟩, []⟩) =
    ⟨true, ⟨now, some ⟨today, latestEntries⟩⟩, [latestEntries]⟩
  rw [if_pos hnew]

/-- Witness for C5 with no stored record at all. -/
theorem checkForNew_empty_cache_publishes_witness :
    ¬((100000 : Int) - (⟨0, none⟩ : JournalState).lastFetchTimestamp < 30000) ∧
    cachedEntriesOf (⟨0, none⟩ : JournalState).storage = [] ∧
    checkForNewArticles 100000 "2026-10-11" (.ok [demoArticle 3]) ⟨0, none⟩ =
      ⟨true, ⟨100000, some ⟨"2026-10-11", [demoArticle 3]⟩⟩, [[demoArticle 3]]⟩ :=
  ⟨by decide, rfl,
    checkForNew_empty_cache_publishes 100000 "2026-10-11" [demoArticle 3] ⟨0, none⟩
      (by decide) rfl⟩

/-! ## Unified Article Service (mock-data variant)

Collaborator results are explicit parameters: `mock*` values are the results
of the corresponding synchronous mock-data calls, `journalFetch` is the
outcome of `fetchDailyJournalEntries` viewed as a possibly-throwing awaited
call (the catch blocks exist to handle such a failure), and `shuffle` stands
for the unseeded `sort(() => 0.5 - Math.random())`. Each service read keeps
the module-level `latestArticles` cache as a parameter, used or not exactly
as the source uses it. -/

/-- `fetchAllArticles(forceRefresh)`: serve the in-process cache when
non-empty and not forced; otherwise rebuild it as `mock ++ journal`; on
failure fall back to the non-empty in-process cache, else to the static
dataset. Returns `(result, latestArticles afterwards)`. -/
def fetchAllArticles (forceRefresh : Bool) (latestArticles : List NewsArticle)
    (mockAll : List NewsArticle) (journalFetch : Except Unit (List NewsArticle)) :
    List NewsArticle × List NewsArticle :=
  if 0 < latestArticles.length && !forceRefresh then (latestArticles, latestArticles)
  else
    match journalFetch with
    | .ok journalArticles =>
      let updated := mockAll ++ journalArticles
      (updated, updated)
    | .error _ =>
      if 0 < latestArticles.length then (latestArticles, latestArticles)
      else (mockAll, latestArticles)

/-- `fetchArticlesByCategory(category)`: journal category is served from the
journal API, every other category from the mock dataset; the catch block
falls back to the mock dataset directly (the `latestArticles` cache is in
scope but not consulted). -/
def fetchArticlesByCategory (category : String) (latestArticles : List NewsArticle)
    (mockByCategory : List NewsArticle)
    (journalFetch : Except Unit (List NewsArticle)) : List NewsArticle :=
  if category == "journal" then
    match journalFetch with
    | .ok entries => entries
    | .error _ => mockByCategory
  else mockByCategory

/-- `fetchTrendingArticles()`: mock trending plus trending journal entries;
the catch block falls back to mock trending directly. -/
def fetchTrendingArticles (latestArticles : List NewsArticle)
    (mockTrending : List NewsArticle)
    (journalFetch : Except Unit (List NewsArticle)) : List NewsArticle :=
  match journalFetch with
  | .ok journalArticles => mockTrending ++ journalArticles.filter (fun a => a.trending)
  | .error _ => mockTrending

/-- `searchAllArticles(query)`: mock search results plus journal entries
whose lowercased title or summary contains the lowercased query; the catch
block falls back to the mock search results directly. -/
def searchAllArticles (query : String) (latestArticles : List NewsArticle)
    (mockResults : List NewsArticle)
    (journalFetch : Except Unit (List NewsArticle)) : List NewsArticle :=
  match journalFetch with
  | .ok journalArticles =>
    let searchTerm := toLowerStr query
    mockResults ++ journalArticles.filter (fun a =>
      strIncludes (toLowerStr a.title) searchTerm
        || strIncludes (toLowerStr a.summary) searchTerm)
  | .error _ => mockResults

/-- `fetchArticleById(id)` of the unified service: mock lookup first, then
the journal API; the catch block returns the mock lookup result (`|| null`). -/
def fetchArticleById (id : String) (latestArticles : List NewsArticle)
    (mockById : Option NewsArticle)
    (journalLookup : Except Unit (Option NewsArticle)) : Option NewsArticle :=
  match mockById with
  | some a => some a
  | none =>
    match journalLookup with
    | .ok r => r
    | .error _ => mockById

/-- `fetchRelatedArticles(currentArticleId, category, limit)`: journal
category takes shuffled other journal entries, truncated to `limit`; other
categories and the catch block use the mock related-articles result. -/
def fetchRelatedArticles (currentArticleId category : String) (limit : Nat)
    (latestArticles : List NewsArticle) (mockRelated : List NewsArticle)
    (journalFetch : Except Unit (List NewsArticle))
    (shuffle : List NewsArticle → List NewsArticle) : List NewsArticle :=
  if category == "journal" then
    match journalFetch with
    | .ok allJournalEntries =>
      (shuffle (allJournalEntries.filter (fun a => a.id != currentArticleId))).take limit
    | .error _ => mockRelated
  else mockRelated

/-- Counterexample to C6 as stated: `fetchArticlesByCategory` for the journal
category with a failing live path and a NON-empty in-process cache
(`[demoArticle 9]`) returns the static mock result (`[]` here), not the
cache. -/
theorem service_cache_fallback_counterexample :
    fetchArticlesByCategory "journal" [demoArticle 9] [] (.error ()) = [] ∧
    ([demoArticle 9] : List NewsArticle) ≠ [] ∧
    fetchArticlesByCategory "journal" [demoArticle 9] [] (.error ()) ≠
      [demoArticle 9] := by decide

/-- C6 amended: on a failing live path, `fetchAllArticles` falls back to the
in-process `latestArticles` cache when non-empty and to the static dataset
otherwise; the five other read operations fall back directly to the
corresponding static mock result, regardless of the in-process cache. -/
theorem service_error_fallback_amended :
    (∀ forceRefresh latest mockAll,
      (fetchAllArticles forceRefresh latest mockAll (.error ())).1 =
        if 0 < latest.length then latest else mockAll) ∧
    (∀ category latest mockByCategory,
      fetchArticlesByCategory category latest mockByCategory (.error ()) =
        mockByCategory) ∧
    (∀ latest mockTrending,
      fetchTrendingArticles latest mockTrending (.error ()) = mockTrending) ∧
    (∀ query latest mockResults,
      searchAllArticles query latest mockResults (.error ()) = mockResults) ∧
    (∀ id latest mockById,
      fetchArticleById id latest mockById (.error ()) = mockById) ∧
    (∀ currentArticleId category limit latest mockRelated shuffle,
      fetchRelatedArticles currentArticleId category limit latest mockRelated
        (.error ()) shuffle = mockRelated) := by
  refine ⟨?_, ?_, ?_, ?_, ?_, ?_⟩
  · intro forceRefresh latest mockAll
    cases forceRefresh <;> by_cases hl : 0 < latest.length <;>
      simp [fetchAllArticles, hl]
  · intro category latest mockByCategory
    unfold fetchArticlesByCategory
    split <;> rfl
  · intro latest mockTrending
    rfl
  · intro query latest mockResults
    rfl
  · intro id latest mockById
    unfold fetchArticleById
    cases mockById <;> rfl
  · intro currentArticleId category limit latest mockRelated shuffle
    unfold fetchRelatedArticles
    split <;> rfl

/-! ## Update Notifier / Poller -/

/-- `notifyCheckingStatusListeners`: apply every registered checking-status
listener, in registration order, to the flag. -/
def notifyCheckingStatusListeners {α : Type} (listeners : List (Bool → α))
    (isChecking : Bool) : List α :=
  listeners.map (fun listener => listener isChecking)

/-- Timer bookkeeping of the polling module: the host's set of live interval
timers (id, cadence), the module-level `pollingInterval` handle, and the next
timer id the host will hand out (`window.setInterval` ids are positive). -/
structure PollState where
  activeTimers : List (Nat × Int)
  pollingInterval : Option Nat
  nextId : Nat
  deriving DecidableEq, Repr

/-- Module state at load: no timer, no handle. -/
def initialPollState : PollState := ⟨[], none, 1⟩

/-- Host `clearInterval(timerId)`. -/
def clearIntervalTimer (timerId : Nat) (s : PollState) : PollState :=
  { s with activeTimers := s.activeTimers.filter (fun t => t.1 != timerId) }

/-- Host `window.setInterval(checkAndNotify, intervalMs)`: registers a fresh
timer and returns its id. -/
def setIntervalTimer (intervalMs : Int) (s : PollState) : Nat × PollState :=
  (s.nextId,
    { s with activeTimers := s.activeTimers ++ [(s.nextId, intervalMs)]
           , nextId := s.nextId + 1 })

/-- `startArticlePolling(intervalMs)` (timer bookkeeping): clear the existing
timer if any, then install a fresh repeating timer and store its handle. (The
immediate `checkAndNotify()` call touches no timer state; it is modelled by
`checkAndNotify` below.) -/
def startArticlePolling (intervalMs : Int) (s : PollState) : PollState :=
  let s1 :=
    match s.pollingInterval with
    | some timerId => clearIntervalTimer timerId s
    | none => s
  let idAndState := setIntervalTimer intervalMs s1
  { idAndState.2 with pollingInterval := some idAndState.1 }

/-- `stopArticlePolling()`: cancel the timer if present; idempotent. -/
def stopArticlePolling (s : PollState) : PollState :=
  match s.pollingInterval with
  | some timerId => { clearIntervalTimer timerId s with pollingInterval := none }
  | none => s

/-- The polling-module timer invariant: either no live timer, or exactly the
one whose id the module handle holds. -/
def timersOK (s : PollState) : Prop :=
  match s.pollingInterval with
  | none => s.activeTimers = []
  | some timerId => s.activeTimers = [] ∨ ∃ iv, s.activeTimers = [(timerId, iv)]

/-- C7: from any state satisfying the timer invariant, `startArticlePolling`
leaves exactly one live timer, at the new cadence (so each call clears the
old timer before installing the new one); the invariant is preserved along
any sequence of calls, keeping at most one timer live; and concretely
`startPolling(1000)` then `startPolling(500)` leaves exactly one timer at
500 ms. -/
theorem startPolling_single_timer :
    (∀ intervalMs s, timersOK s →
      (startArticlePolling intervalMs s).activeTimers.map Prod.snd = [intervalMs] ∧
      timersOK (startArticlePolling intervalMs s)) ∧
    (∀ (intervals : List Int) (s : PollState), timersOK s →
      ((intervals.foldl (fun st iv => startArticlePolling iv st) s).activeTimers.length ≤ 1)) ∧
    (startArticlePolling 500 (startArticlePolling 1000 initialPollState)).activeTimers.map
      Prod.snd = [500] := by
  have hstep : ∀ intervalMs s, timersOK s →
      startArticlePolling intervalMs s =
        ⟨[(s.nextId, intervalMs)], some s.nextId, s.nextId + 1⟩ := by
    intro iv s hOK
    obtain ⟨timers, pi, nid⟩ := s
    cases pi with
    | none =>
      have ht : timers = [] := hOK
      subst ht
      rfl
    | some timerId =>
      rcases (hOK : timers = [] ∨ ∃ iv0, timers = [(timerId, iv0)]) with ht | ⟨iv0, ht⟩ <;>
        subst ht <;>
        simp [startArticlePolling, clearIntervalTimer, setIntervalTimer]
  have hok : ∀ intervalMs s, timersOK s → timersOK (startArticlePolling intervalMs s) := by
    intro iv s hOK
    rw [hstep iv s hOK]
    exact Or.inr ⟨iv, rfl⟩
  have hlen : ∀ s, timersOK s → s.activeTimers.length ≤ 1 := by
    intro s hOK
    obtain ⟨timers, pi, nid⟩ := s
    cases pi with
    | none =>
      have ht : timers = [] := hOK
      simp [ht]
    | some timerId =>
      rcases (hOK : timers = [] ∨ ∃ iv0, timers = [(timerId, iv0)]) with ht | ⟨iv0, ht⟩
      · have ht' : timers = [] := ht
        simp [ht']
      · have ht' : timers = [(timerId, iv0)] := ht
        simp [ht']
  refine ⟨?_, ?_, ?_⟩
  · intro iv s hOK
    rw [hstep iv s hOK]
    exact ⟨rfl, Or.inr ⟨iv, rfl⟩⟩
  · intro intervals
    induction intervals with
    | nil => intro s hOK; exact hlen s hOK
    | cons iv rest ih => intro s hOK; exact ih _ (hok iv s hOK)
  · rfl

/-- Witness for C7 from the load-time state. -/
theorem startPolling_single_timer_witness :
    timersOK initialPollState ∧
    ((startArticlePolling 1000 initialPollState).activeTimers.map Prod.snd = [1000] ∧
      timersOK (startArticlePolling 1000 initialPollState)) ∧
    ([(1000 : Int), 500].foldl (fun st iv => startArticlePolling iv st)
        initialPollState).activeTimers.length ≤ 1 :=
  ⟨rfl, startPolling_single_timer.1 1000 initialPollState rfl,
    startPolling_single_timer.2.1 [1000, 500] initialPollState rfl⟩

/-- Result of one timer firing of `checkAndNotify`: whether the check body
ran, the checking-status notifications published (in order), and the
single-flight guard afterwards. -/
structure CheckAttemptOut where
  checkRan : Bool
  statusEvents : List Bool
  guardAfter : Bool
  deriving DecidableEq, Repr

/-- `checkAndNotify` of `startArticlePolling`: a firing that arrives while
`isCurrentlyChecking` holds returns at once (not queued — nothing runs,
nothing is published); otherwise the guard is taken, `true` is published,
`checkForNewArticles()` is awaited (either outcome), and the `finally` block
releases the guard and publishes `false`. -/
def checkAndNotify (isCurrentlyChecking : Bool) (checkOutcome : Except Unit Bool) :
    CheckAttemptOut :=
  if isCurrentlyChecking then ⟨false, [], isCurrentlyChecking⟩
  else
    match checkOutcome with
    | .ok _ => ⟨true, [true, false], false⟩
    | .error _ => ⟨true, [true, false], false⟩

/-- C8: a firing with the single-flight guard held is skipped entirely (the
check does not run, no status event is published, the guard is untouched);
an executed attempt publishes exactly `true` then `false` and releases the
guard, whether `checkForNewArticles` resolves or throws. -/
theorem checkAndNotify_guard (checkOutcome : Except Unit Bool) :
    checkAndNotify true checkOutcome = ⟨false, [], true⟩ ∧
    checkAndNotify false checkOutcome = ⟨true, [true, false], false⟩ := by
  cases checkOutcome <;> exact ⟨rfl, rfl⟩

end JournalSphere
